/-
  Verification of the cargo-with command-line tool against its
  natural-language specification.

  Shallow embedding of the core logic of the repository:
    - src/cargo.rs    : CmdKind, Cmd, BuildOpt (artifact records),
                        select_buildopt, BuildOpt::artifact
    - src/with_command.rs : WithCmd::new, WithCmd::child_command
  plus a model of the external library behaviour the code relies on:
    - serde_json line decoding of BuildOpt records (a small JSON parser
      together with the field-strict, unknown-field-tolerant record
      decoder that the serde derive produces; JSON numbers are modelled
      as integers, which covers every field of the artifact schema),
    - Rust str::replace / str::contains / str::split_whitespace /
      str::lines (re-implemented on character lists; the empty pattern,
      which never occurs in the embedded code, is not modelled).

  Machinery that is pure IO (process spawning, exit-status plumbing,
  logging) is outside the embedding; the functions below compute the
  exact data those IO steps consume.
-/
import Mathlib

set_option maxRecDepth 100000

namespace CargoWith

/-! ## Rust string primitives, re-implemented on character lists -/

/-- One step of Rust `str::contains`: does `pat` occur starting at some
position of `s`? -/
def containsFrom (pat : List Char) : List Char → Bool
  | [] => pat.isPrefixOf []
  | c :: rest => pat.isPrefixOf (c :: rest) || containsFrom pat rest

/-- Rust `s.contains(pat)` (substring containment). -/
def strContains (s pat : String) : Bool :=
  containsFrom pat.data s.data

/-- Fuel-driven core of Rust `str::replace`: replace every non-overlapping
occurrence of `pat` (left to right) by `rep`.  Structural in the fuel so
that the kernel can evaluate it. -/
def replaceF : Nat → List Char → List Char → List Char → List Char
  | 0, _, _, s => s
  | Nat.succ fuel, pat, rep, s =>
    match s with
    | [] => []
    | c :: rest =>
      if pat ≠ [] ∧ pat.isPrefixOf (c :: rest) then
        rep ++ replaceF fuel pat rep ((c :: rest).drop pat.length)
      else
        c :: replaceF fuel pat rep rest

/-- Rust `s.replace(pat, rep)` (for the non-empty patterns used by the
code; `s.data.length` fuel is always enough since every step consumes at
least one character). -/
def rustReplace (s pat rep : String) : String :=
  String.mk (replaceF s.data.length pat.data rep.data s.data)

/-- Helper for Rust `str::split_whitespace`: split into maximal runs of
non-whitespace characters, dropping empty pieces; `cur` is the reversed
current token. -/
def splitWsAux (cur : List Char) : List Char → List (List Char)
  | [] => if cur = [] then [] else [cur.reverse]
  | c :: rest =>
    if c.isWhitespace then
      if cur = [] then splitWsAux [] rest
      else cur.reverse :: splitWsAux [] rest
    else
      splitWsAux (c :: cur) rest

/-- Rust `s.split_whitespace().collect()`. -/
def splitWhitespace (s : String) : List String :=
  (splitWsAux [] s.data).map String.mk

/-- Split on a newline character, keeping interior empty pieces. -/
def splitNlAux (cur : List Char) : List Char → List (List Char)
  | [] => [cur.reverse]
  | c :: rest =>
    if c = '\n' then cur.reverse :: splitNlAux [] rest
    else splitNlAux (c :: cur) rest

/-- Strip one trailing carriage return, as Rust `str::lines` does. -/
def stripCr (cs : List Char) : List Char :=
  if cs.getLast? = some '\r' then cs.dropLast else cs

/-- Rust `s.lines().collect()`: split on newlines, drop the final empty
piece produced by a trailing newline, strip a trailing `\r` per line. -/
def rustLines (s : String) : List String :=
  let parts := splitNlAux [] s.data
  let parts := if parts.getLast? = some [] then parts.dropLast else parts
  parts.map (fun cs => String.mk (stripCr cs))

/-! ## JSON values and a small parser (model of serde_json) -/

/-- JSON values as produced by `cargo --message-format=json` (numbers
modelled as integers: every numeric field of the artifact schema is an
integer). -/
inductive Json where
  | null : Json
  | bool : Bool → Json
  | num : Int → Json
  | str : String → Json
  | arr : List Json → Json
  | obj : List (String × Json) → Json

def lbraceChar : Char := Char.ofNat 123

def rbraceChar : Char := Char.ofNat 125

/-- Skip JSON insignificant whitespace. -/
def skipWs : List Char → List Char
  | [] => []
  | c :: rest =>
    if c = ' ' ∨ c = '\t' ∨ c = '\n' ∨ c = '\r' then skipWs rest
    else c :: rest

/-- JSON string escape table (the `\u` form is not needed for the record
schema and is rejected). -/
def escMap (c : Char) : Option Char :=
  if c = '"' then some '"'
  else if c = '\\' then some '\\'
  else if c = '/' then some '/'
  else if c = 'n' then some '\n'
  else if c = 't' then some '\t'
  else if c = 'r' then some '\r'
  else if c = 'b' then some (Char.ofNat 8)
  else if c = 'f' then some (Char.ofNat 12)
  else none

/-- Parse the body of a JSON string after the opening quote; `acc` holds
the reversed characters read so far. -/
def parseStrAux : List Char → List Char → Option (List Char × List Char)
  | _, [] => none
  | acc, c :: rest =>
    if c = '"' then some (acc.reverse, rest)
    else if c = '\\' then
      match rest with
      | [] => none
      | e :: rest2 =>
        match escMap e with
        | some d => parseStrAux (d :: acc) rest2
        | none => none
    else parseStrAux (c :: acc) rest

def digitVal (c : Char) : Nat := c.toNat - '0'.toNat

/-- Consume a run of decimal digits, accumulating their value. -/
def parseNatAux : Nat → List Char → (Nat × List Char)
  | acc, [] => (acc, [])
  | acc, c :: rest =>
    if c.isDigit then parseNatAux (acc * 10 + digitVal c) rest
    else (acc, c :: rest)

/-- Recursive-descent JSON value parser, structural in the fuel.  The
remainder of an array (resp. object) after a comma is parsed by
re-feeding it prefixed with an opening bracket (resp. brace), so a
single non-mutual function suffices. -/
def parseV : Nat → List Char → Option (Json × List Char)
  | 0, _ => none
  | Nat.succ fuel, s =>
    match skipWs s with
    | [] => none
    | c :: rest =>
      if c = '"' then
        match parseStrAux [] rest with
        | some (cs, r) => some (Json.str (String.mk cs), r)
        | none => none
      else if c = '[' then
        match skipWs rest with
        | ']' :: r2 => some (Json.arr [], r2)
        | _ =>
          match parseV fuel rest with
          | none => none
          | some (v, r) =>
            match skipWs r with
            | ',' :: r2 =>
              match parseV fuel ('[' :: r2) with
              | some (Json.arr vs, r3) => some (Json.arr (v :: vs), r3)
              | _ => none
            | ']' :: r2 => some (Json.arr [v], r2)
            | _ => none
      else if c = lbraceChar then
        match skipWs rest with
        | [] => none
        | c2 :: r2 =>
          if c2 = rbraceChar then some (Json.obj [], r2)
          else if c2 = '"' then
            match parseStrAux [] r2 with
            | none => none
            | some (kcs, r3) =>
              match skipWs r3 with
              | ':' :: r4 =>
                match parseV fuel r4 with
                | none => none
                | some (v, r5) =>
                  match skipWs r5 with
                  | ',' :: r6 =>
                    match parseV fuel (lbraceChar :: r6) with
                    | some (Json.obj fs, r7) =>
                      some (Json.obj ((String.mk kcs, v) :: fs), r7)
                    | _ => none
                  | c3 :: r6 =>
                    if c3 = rbraceChar then
                      some (Json.obj [(String.mk kcs, v)], r6)
                    else none
                  | [] => none
              | _ => none
          else none
      else if c = '-' then
        match rest with
        | [] => none
        | d :: r =>
          if d.isDigit then
            let p := parseNatAux (digitVal d) r
            some (Json.num (-(p.1 : Int)), p.2)
          else none
      else if c.isDigit then
        let p := parseNatAux (digitVal c) rest
        some (Json.num (p.1 : Int), p.2)
      else if "null".data.isPrefixOf (c :: rest) then
        some (Json.null, (c :: rest).drop 4)
      else if "true".data.isPrefixOf (c :: rest) then
        some (Json.bool true, (c :: rest).drop 4)
      else if "false".data.isPrefixOf (c :: rest) then
        some (Json.bool false, (c :: rest).drop 5)
      else none

/-- Model of `serde_json` top-level parsing: one complete JSON value
followed only by whitespace. -/
def parseJson (s : String) : Option Json :=
  match parseV (s.data.length + 1) s.data with
  | some (v, rest) => if skipWs rest = [] then some v else none
  | none => none

def Json.getField (j : Json) (key : String) : Option Json :=
  match j with
  | Json.obj fs => fs.lookup key
  | _ => none

def Json.asStr : Json → Option String
  | Json.str s => some s
  | _ => none

def Json.asBool : Json → Option Bool
  | Json.bool b => some b
  | _ => none

def Json.asArr : Json → Option (List Json)
  | Json.arr xs => some xs
  | _ => none

def getStrField (j : Json) (key : String) : Option String :=
  (j.getField key).bind Json.asStr

def getBoolField (j : Json) (key : String) : Option Bool :=
  (j.getField key).bind Json.asBool

def getStrListField (j : Json) (key : String) : Option (List String) :=
  ((j.getField key).bind Json.asArr).bind (List.mapM Json.asStr)

/-! ## The artifact record data model (src/cargo.rs) -/

/-- `TargetKind` from src/cargo.rs (serde kebab-case strings). -/
inductive TargetKind where
  | Example : TargetKind
  | Test : TargetKind
  | Bin : TargetKind
  | Lib : TargetKind
  | Rlib : TargetKind
  | Dylib : TargetKind
  | ProcMacro : TargetKind
  | Bench : TargetKind
  | CustomBuild : TargetKind
deriving DecidableEq

/-- Deserialization of one `TargetKind` string (serde kebab-case
renaming); any other string is a deserialization error. -/
def TargetKind.from_str (s : String) : Option TargetKind :=
  if s = "example" then some TargetKind.Example
  else if s = "test" then some TargetKind.Test
  else if s = "bin" then some TargetKind.Bin
  else if s = "lib" then some TargetKind.Lib
  else if s = "rlib" then some TargetKind.Rlib
  else if s = "dylib" then some TargetKind.Dylib
  else if s = "proc-macro" then some TargetKind.ProcMacro
  else if s = "bench" then some TargetKind.Bench
  else if s = "custom-build" then some TargetKind.CustomBuild
  else none

/-- The `Display` strings of `TargetKind` (the `impl Display` in
src/cargo.rs), used when formatting the multiple-candidates error. -/
def TargetKind.display : TargetKind → String
  | TargetKind.Example => "example"
  | TargetKind.Test => "test"
  | TargetKind.Bin => "bin"
  | TargetKind.Lib => "lib"
  | TargetKind.Rlib => "rlib"
  | TargetKind.Dylib => "dylib"
  | TargetKind.ProcMacro => "proc-macro"
  | TargetKind.Bench => "bench"
  | TargetKind.CustomBuild => "custom-build"

/-- `Profile` from src/cargo.rs. -/
structure Profile where
  debug_assertions : Bool
  debuginfo : Option Nat
  opt_level : String
  overflow_checks : Bool
  test : Bool
deriving DecidableEq

/-- `Target` from src/cargo.rs (`PathBuf` modelled as a string). -/
structure Target where
  crate_types : List String
  edition : String
  kind : List TargetKind
  name : String
  src_path : String
deriving DecidableEq

/-- `BuildOpt` from src/cargo.rs: one parsed artifact record. -/
structure BuildOpt where
  features : List String
  filenames : List String
  fresh : Bool
  package_id : String
  profile : Profile
  reason : String
  target : Target
deriving DecidableEq

/-- serde-derived decoding of `Profile`: every field required, except
that the `Option` field also accepts `null` and absence. -/
def Profile.fromJson (j : Json) : Option Profile := do
  let da ← getBoolField j "debug_assertions"
  let dbg ← (match j.getField "debuginfo" with
    | none => some none
    | some Json.null => some none
    | some (Json.num n) => if 0 ≤ n then some (some n.toNat) else none
    | some _ => none)
  let ol ← getStrField j "opt_level"
  let oc ← getBoolField j "overflow_checks"
  let t ← getBoolField j "test"
  some ⟨da, dbg, ol, oc, t⟩

/-- serde-derived decoding of `Target`. -/
def Target.fromJson (j : Json) : Option Target := do
  let ct ← getStrListField j "crate_types"
  let ed ← getStrField j "edition"
  let kindsJ ← (j.getField "kind").bind Json.asArr
  let kinds ← kindsJ.mapM (fun kj => (Json.asStr kj).bind TargetKind.from_str)
  let nm ← getStrField j "name"
  let sp ← getStrField j "src_path"
  some ⟨ct, ed, kinds, nm, sp⟩

/-- serde-derived decoding of `BuildOpt`: all seven fields required,
unknown extra fields ignored. -/
def BuildOpt.fromJson (j : Json) : Option BuildOpt := do
  let fs ← getStrListField j "features"
  let fns ← getStrListField j "filenames"
  let fr ← getBoolField j "fresh"
  let pid ← getStrField j "package_id"
  let prJ ← j.getField "profile"
  let pr ← Profile.fromJson prJ
  let rs ← getStrField j "reason"
  let tgJ ← j.getField "target"
  let tg ← Target.fromJson tgJ
  some ⟨fs, fns, fr, pid, pr, rs, tg⟩

/-- `serde_json::from_str::<BuildOpt>` on one line of build output. -/
def deserializeBuildOpt (s : String) : Option BuildOpt :=
  (parseJson s).bind BuildOpt.fromJson

/-- The per-line decoding stage of `Cmd::run`
(`.lines().flat_map(serde_json::from_str::<BuildOpt>)`), given the list
of lines: failed lines are dropped, decoded records kept in order. -/
def decodedRecords (ls : List String) : List BuildOpt :=
  ls.filterMap deserializeBuildOpt

/-- The full output-parsing stage of `Cmd::run` on the captured stdout
text. -/
def parseBuildOpts (stdout : String) : List BuildOpt :=
  decodedRecords (rustLines stdout)

/-! ## Cargo command construction (src/cargo.rs) -/

/-- `CmdKind` from src/cargo.rs. -/
inductive CmdKind where
  | Run : CmdKind
  | Test : CmdKind
deriving DecidableEq

/-- `CmdKind::from_str`: only `run` and `test` are recognised. -/
def CmdKind.from_str (s : String) : Option CmdKind :=
  if s = "run" then some CmdKind.Run
  else if s = "test" then some CmdKind.Test
  else none

/-- `CmdKind::as_artifact_cmd`. -/
def CmdKind.as_artifact_cmd : CmdKind → String
  | CmdKind.Run => "build"
  | CmdKind.Test => "test"

/-- `DEFAULT_CARGO_ARGS` from src/cargo.rs. -/
def DEFAULT_CARGO_ARGS : List String := ["--message-format=json", "--quiet"]

/-- `Cmd` from src/cargo.rs. -/
structure Cmd where
  kind : CmdKind
  args : List String
deriving DecidableEq

/-- `Cmd::from_strs` (errors modelled by their `failure` message
strings). -/
def Cmd.from_strs (strs : List String) : Except String Cmd :=
  match strs with
  | [] => Except.error "Empty cargo command"
  | k :: rest =>
    match CmdKind.from_str k with
    | some kind => Except.ok ⟨kind, rest⟩
    | none =>
      Except.error ("Unable to convert \x27" ++ k ++ "\x27 into a cargo subcommand")

/-- `Cmd::args`: the argument vector passed to the external `cargo`
process. -/
def Cmd.argsList (c : Cmd) : List String :=
  c.kind.as_artifact_cmd :: (DEFAULT_CARGO_ARGS ++ c.args)

/-- The split of the raw cargo-subcommand token list performed by the
orchestrator (runner.rs): everything before the first `--`. -/
def runnerSubcmd (cargo_cmd : List String) : List String :=
  cargo_cmd.takeWhile (fun el => el ≠ "--")

/-- Stage one of the orchestrator: build the `Cmd`; an error here aborts
before the external build tool is invoked. -/
def runnerCargoCmd (cargo_cmd : List String) : Except String Cmd :=
  Cmd.from_strs (runnerSubcmd cargo_cmd)

/-! ## Candidate selection (src/cargo.rs, `select_buildopt`) -/

/-- The target kinds `select_buildopt` looks for in the run case. -/
def lookFor : List TargetKind := [TargetKind.Bin, TargetKind.Example, TargetKind.Test]

/-- The filter closure inside `select_buildopt`. -/
def selectFilter (cmd_kind : CmdKind) (opt : BuildOpt) : Bool :=
  if cmd_kind = CmdKind.Test then opt.profile.test
  else opt.target.kind.any (fun kind => lookFor.any (fun lkind => lkind == kind))

/-- Disambiguation hint shown in the multiple-candidate error for the
test case. -/
def testHintMsg : String :=
  "Please use `--test`, `--example`, `--bin` or `--lib` to specify exactly what binary you want to examine"

/-- Disambiguation hint shown in the multiple-candidate error for the
run case. -/
def runHintMsg : String :=
  "Please use `--example` or `--bin` to specify exactly what binary you want to examine"

/-- One line of the multiple-candidates message, from the source's
`format!("\t- \x7b\x7d (\x7b\x7d)\n", opt.target.name, opt.target.kind[0])`.
The `kind[0]` indexing panics when the kind list is empty; the panic is
modelled by `none`. -/
def candidateLine (o : BuildOpt) : Option String :=
  o.target.kind.head?.map (fun k =>
    "\t- " ++ o.target.name ++ " (" ++ k.display ++ ")\n")

/-- The list of candidate lines, `none` as soon as some candidate's kind
list is empty (the panic propagates). -/
def candidateLines : List BuildOpt → Option (List String)
  | [] => some []
  | o :: rest =>
    match candidateLine o, candidateLines rest with
    | some s, some ls => some (s :: ls)
    | _, _ => none

/-- The `candidates_str` built by `select_buildopt` for the
multiple-candidates error: every passing candidate's line, concatenated
in order; `none` models the panic hit when some candidate's kind list is
empty. -/
def candidatesStr (os : List BuildOpt) : Option String :=
  (candidateLines os).map String.join

/-- Errors of `select_buildopt`.  `noCandidates` renders as
"Found no possible candidates"; `multipleCandidates` carries the
formatted candidates string (one line per passing candidate, in order)
together with the disambiguation hint. -/
inductive SelectError where
  | noCandidates : SelectError
  | multipleCandidates : String → String → SelectError
deriving DecidableEq

/-- `select_buildopt` from src/cargo.rs: filter, then demand exactly one
survivor.  The outer `Option` models the Rust panic that the
multiple-candidates branch hits when formatting `opt.target.kind[0]`
for a candidate whose kind list is empty; every other path is `some`. -/
def select_buildopt (opts : List BuildOpt) (cmd_kind : CmdKind) :
    Option (Except SelectError BuildOpt) :=
  match opts.filter (selectFilter cmd_kind) with
  | [] => some (Except.error SelectError.noCandidates)
  | [first] => some (Except.ok first)
  | first :: second :: rest =>
    (candidatesStr (first :: second :: rest)).map (fun s =>
      Except.error (SelectError.multipleCandidates s
        (if cmd_kind = CmdKind.Test then testHintMsg else runHintMsg)))

/-- `BuildOpt::artifact` from src/cargo.rs: `Ok(self.filenames[0].clone())`.
The Rust indexing panics when `filenames` is empty; the panic is modelled
by the outer `none`.  The `Except` layer mirrors the `Result` return
type, whose error case is unreachable in the source. -/
def BuildOpt.artifact (o : BuildOpt) : Option (Except String String) :=
  o.filenames.head?.map Except.ok

/-! ## Wrapper-command template expansion (src/with_command.rs) -/

/-- `WithCmd` from src/with_command.rs. -/
structure WithCmd where
  split_cmd : List String
deriving DecidableEq

/-- The token list of `WithCmd::new` after the two conditional appends
(the source tests substring containment on the raw string, not token
equality). -/
def appendedTokens (raw : String) : List String :=
  let split_raw := splitWhitespace raw
  let split_raw := if strContains raw "{bin}" then split_raw else split_raw ++ ["{bin}"]
  if strContains raw "{args}" then split_raw else split_raw ++ ["{args}"]

/-- `WithCmd::new`: tokenize on whitespace, conditionally append the two
placeholders, then splice `trailing_args` in place of each exact
`\x7bargs\x7d` token. -/
def WithCmd.new (raw : String) (trailing_args : List String) : WithCmd :=
  ⟨(appendedTokens raw).flatMap (fun el => if el = "{args}" then trailing_args else [el])⟩

/-- `WithCmd::child_command`: split off the executable and replace every
`\x7bbin\x7d` substring in every element. -/
def WithCmd.child_command (w : WithCmd) (bin_path : String) :
    Except String (String × List String) :=
  match w.split_cmd with
  | [] => Except.error "No child command given."
  | bin :: args =>
    Except.ok (rustReplace bin "{bin}" bin_path,
      args.map (fun el => rustReplace el "{bin}" bin_path))

/-- The fully expanded command line (executable followed by arguments)
when a child command exists. -/
def expandedCmdList (raw : String) (trailing : List String) (p : String) :
    Option (List String) :=
  match (WithCmd.new raw trailing).child_command p with
  | Except.ok (exe, args) => some (exe :: args)
  | Except.error _ => none

/-- The element-wise `\x7bbin\x7d` replacement applied to the whole
token vector (executable included), total version. -/
def expandedFlat (raw : String) (trailing : List String) (p : String) :
    List String :=
  (WithCmd.new raw trailing).split_cmd.map (fun el => rustReplace el "{bin}" p)

/-- Modelled from the spec: the append rule as the claim states it
(token equality instead of the code's substring test), for comparison
with `appendedTokens`. -/
def claimedAppendedTokens (raw : String) : List String :=
  let s := splitWhitespace raw
  let s := if s.contains "{bin}" then s else s ++ ["{bin}"]
  if s.contains "{args}" then s else s ++ ["{args}"]

/-! ## concrete fixtures (lines of build output and their records) -/

/-- A valid compiler-artifact output line. -/
def artifactLine : String :=
  "\x7b\"features\":[],\"filenames\":[\"/t/x\"],\"fresh\":true,\"package_id\":\"p 0.1.0\",\"profile\":\x7b\"debug_assertions\":true,\"debuginfo\":2,\"opt_level\":\"0\",\"overflow_checks\":true,\"test\":true\x7d,\"reason\":\"compiler-artifact\",\"target\":\x7b\"crate_types\":[\"bin\"],\"edition\":\"2015\",\"kind\":[\"bin\"],\"name\":\"p\",\"src_path\":\"/t/main.rs\"\x7d\x7d"

/-- The record `artifactLine` decodes to. -/
def artifactRec : BuildOpt :=
  ⟨[], ["/t/x"], true, "p 0.1.0", ⟨true, some 2, "0", true, true⟩,
    "compiler-artifact", ⟨["bin"], "2015", [TargetKind.Bin], "p", "/t/main.rs"⟩⟩

/-- A build-script status line, which does not have the artifact shape
and therefore fails to decode. -/
def statusLine : String :=
  "\x7b\"reason\":\"build-script-executed\",\"package_id\":\"p 0.1.0\"\x7d"

/-- An artifact-shaped output line whose `reason` is not
`compiler-artifact`. -/
def scriptReasonLine : String :=
  "\x7b\"features\":[],\"filenames\":[\"/t/x9\"],\"fresh\":false,\"package_id\":\"p9 0.1.0\",\"profile\":\x7b\"debug_assertions\":true,\"debuginfo\":null,\"opt_level\":\"0\",\"overflow_checks\":true,\"test\":true\x7d,\"reason\":\"build-script-executed\",\"target\":\x7b\"crate_types\":[\"bin\"],\"edition\":\"2018\",\"kind\":[\"bin\"],\"name\":\"p9\",\"src_path\":\"/t/9.rs\"\x7d\x7d"

/-- The record `scriptReasonLine` decodes to. -/
def scriptReasonRec : BuildOpt :=
  ⟨[], ["/t/x9"], false, "p9 0.1.0", ⟨true, none, "0", true, true⟩,
    "build-script-executed", ⟨["bin"], "2018", [TargetKind.Bin], "p9", "/t/9.rs"⟩⟩

/-- A record with an empty `filenames` list. -/
def emptyFilenamesRec : BuildOpt :=
  ⟨[], [], true, "p", ⟨true, none, "0", true, true⟩,
    "compiler-artifact", ⟨["bin"], "2015", [TargetKind.Bin], "p", "/t/main.rs"⟩⟩

/-- A test-profile record whose target-kind list is empty: it passes the
Test filter, but formatting it in the multiple-candidates message
indexes `kind[0]` out of range. -/
def noKindRec : BuildOpt :=
  ⟨[], ["/t/nk"], true, "nk 0.1.0", ⟨true, none, "0", true, true⟩,
    "compiler-artifact", ⟨[], "2015", [], "nk", "/t/nk.rs"⟩⟩

/-! ## helper lemmas -/

theorem string_mk_data (p : String) : String.mk p.data = p := rfl

theorem replaceF_nil (fuel : Nat) (pat rep : List Char) :
    replaceF fuel pat rep [] = [] := by
  cases fuel <;> rfl

theorem replaceF_self (fuel : Nat) (pat rep : List Char) (h : pat ≠ []) :
    replaceF (fuel + 1) pat rep pat = rep := by
  cases pat with
  | nil => exact absurd rfl h
  | cons c rest =>
    have hpre : (c :: rest).isPrefixOf (c :: rest) = true := by
      rw [List.isPrefixOf_iff_prefix]
    rw [replaceF]
    rw [if_pos ⟨h, hpre⟩]
    rw [List.drop_length, replaceF_nil, List.append_nil]

/-- Replacing the exact pattern token yields the replacement. -/
theorem rustReplace_exact_bin (p : String) : rustReplace "{bin}" "{bin}" p = p := by
  have h := replaceF_self 4 ("{bin}".data) p.data (by decide)
  simpa [rustReplace] using congrArg String.mk h

theorem replaceF_of_not_contains (pat rep : List Char) :
    ∀ fuel s, s.length ≤ fuel → containsFrom pat s = false →
      replaceF fuel pat rep s = s := by
  intro fuel
  induction fuel with
  | zero => intro s _ _; rfl
  | succ fuel ih =>
    intro s hlen hc
    cases s with
    | nil => rfl
    | cons c rest =>
      rw [containsFrom, Bool.or_eq_false_iff] at hc
      rw [replaceF]
      rw [if_neg (fun hand => by simp [hc.1] at hand)]
      rw [ih rest (by simpa using Nat.le_of_succ_le_succ hlen) hc.2]

/-- A string not containing the pattern is left unchanged by
`rustReplace`. -/
theorem rustReplace_of_not_contains (s pat rep : String)
    (h : strContains s pat = false) : rustReplace s pat rep = s := by
  have := replaceF_of_not_contains pat.data rep.data s.data.length s.data
    (Nat.le_refl _) h
  simpa [rustReplace] using congrArg String.mk this

theorem flatMap_id_of_ne (l : List String) (trailing : List String)
    (h : ∀ x ∈ l, x ≠ "{args}") :
    (l.flatMap (fun el => if el = "{args}" then trailing else [el])) = l := by
  induction l with
  | nil => rfl
  | cons a t ih =>
    rw [List.flatMap_cons, if_neg (h a (by simp))]
    rw [ih (fun x hx => h x (by simp [hx]))]
    rfl

theorem flatMap_empty_trailing (l : List String) :
    (l.flatMap (fun el => if el = "{args}" then ([] : List String) else [el]))
      = l.filter (fun el => el != "{args}") := by
  induction l with
  | nil => rfl
  | cons a t ih =>
    by_cases ha : a = "{args}" <;>
      simp [List.flatMap_cons, List.filter_cons, ha, ih]

theorem candidateLine_isSome (o : BuildOpt) (h : o.target.kind ≠ []) :
    ∃ s, candidateLine o = some s := by
  rcases hk : o.target.kind with _ | ⟨k, kt⟩
  · exact absurd hk h
  · exact ⟨"\t- " ++ o.target.name ++ " (" ++ k.display ++ ")\n",
      by simp [candidateLine, hk]⟩

theorem candidateLines_isSome (l : List BuildOpt)
    (h : ∀ o ∈ l, o.target.kind ≠ []) :
    ∃ lines, candidateLines l = some lines := by
  induction l with
  | nil => exact ⟨[], rfl⟩
  | cons a t ih =>
    obtain ⟨s, hs⟩ := candidateLine_isSome a (h a (by simp))
    obtain ⟨ls, hls⟩ := ih (fun o ho => h o (by simp [ho]))
    exact ⟨s :: ls, by simp [candidateLines, hs, hls]⟩

theorem map_id_of_eq (l : List String) (f : String → String)
    (h : ∀ x ∈ l, f x = x) : l.map f = l := by
  induction l with
  | nil => rfl
  | cons a t ih => simp [h a (by simp), ih (fun x hx => h x (by simp [hx]))]

theorem expandedCmdList_of_ne_nil (raw : String) (trailing : List String)
    (p : String) (h : (WithCmd.new raw trailing).split_cmd ≠ []) :
    expandedCmdList raw trailing p
      = some ((WithCmd.new raw trailing).split_cmd.map
          (fun el => rustReplace el "{bin}" p)) := by
  rcases hh : (WithCmd.new raw trailing).split_cmd with _ | ⟨b, bs⟩
  · exact absurd hh h
  · simp [expandedCmdList, WithCmd.child_command, hh]

/-! ## Claim C1: the exactly-one selection policy -/

/-- Counterexample to C1: with two passing candidates whose target-kind
lists are empty (they pass the Test filter, which looks only at the
profile test flag), the multiple-candidates branch panics while
formatting `opt.target.kind[0]` (the `none` below) instead of failing
with the enumerating error the claim asserts for every such stream. -/
theorem select_multi_empty_kind_panic_cex :
    selectFilter CmdKind.Test noKindRec = true ∧
    [noKindRec, noKindRec].filter (selectFilter CmdKind.Test)
      = [noKindRec, noKindRec] ∧
    candidateLine noKindRec = none ∧
    select_buildopt [noKindRec, noKindRec] CmdKind.Test = none := by
  refine ⟨by decide, by decide, by decide, rfl⟩

/-- Claim C1 (amended): `select_buildopt` returns the unique record
passing the kind filter when exactly one passes and fails with the
no-candidates error when none passes; when two or more pass and every
passing candidate has a non-empty target-kind list, it fails with an
error whose message enumerates, in order, every passing candidate's
target name and first target kind, and whose disambiguation hint
differs between the Test case and the Run case; when some passing
candidate's target-kind list is empty, the message formatting panics
on `kind[0]` instead. -/
theorem select_buildopt_exactly_one_policy (opts : List BuildOpt) (kind : CmdKind) :
    (∀ x, opts.filter (selectFilter kind) = [x] →
        select_buildopt opts kind = some (Except.ok x)) ∧
    (opts.filter (selectFilter kind) = [] →
        select_buildopt opts kind = some (Except.error SelectError.noCandidates)) ∧
    (∀ x y rest, opts.filter (selectFilter kind) = x :: y :: rest →
        (∀ o ∈ x :: y :: rest, o.target.kind ≠ []) →
        ∃ lines, candidateLines (x :: y :: rest) = some lines ∧
          select_buildopt opts kind
            = some (Except.error (SelectError.multipleCandidates (String.join lines)
                (if kind = CmdKind.Test then testHintMsg else runHintMsg)))) ∧
    (∀ (o : BuildOpt) k kt, o.target.kind = k :: kt →
        candidateLine o
          = some ("\t- " ++ o.target.name ++ " (" ++ TargetKind.display k ++ ")\n")) ∧
    (∀ x y rest, opts.filter (selectFilter kind) = x :: y :: rest →
        candidatesStr (x :: y :: rest) = none →
        select_buildopt opts kind = none) ∧
    testHintMsg ≠ runHintMsg := by
  refine ⟨?_, ?_, ?_, ?_, ?_, by decide⟩
  · intro x hx; simp [select_buildopt, hx]
  · intro h0; simp [select_buildopt, h0]
  · intro x y rest h2 hne
    obtain ⟨lines, hlines⟩ := candidateLines_isSome (x :: y :: rest) hne
    refine ⟨lines, hlines, ?_⟩
    simp [select_buildopt, h2, candidatesStr, hlines]
  · intro o k kt hk
    simp [candidateLine, hk]
  · intro x y rest h2 hnone
    simp [select_buildopt, h2, hnone]

/-- Witness for C1 at a concrete ambiguous stream (two test-profile
records, command kind Test): the error message lists both candidates'
names and kinds and uses the test-case hint. -/
theorem select_buildopt_exactly_one_policy_witness :
    select_buildopt [artifactRec, artifactRec] CmdKind.Test
      = some (Except.error (SelectError.multipleCandidates
          (String.join ["\t- p (bin)\n", "\t- p (bin)\n"]) testHintMsg)) := by
  obtain ⟨lines, hlines, hsel⟩ :=
    (select_buildopt_exactly_one_policy [artifactRec, artifactRec]
        CmdKind.Test).2.2.1 artifactRec artifactRec [] (by decide) (by decide)
  have hl : lines = ["\t- p (bin)\n", "\t- p (bin)\n"] := by
    have hc : candidateLines [artifactRec, artifactRec]
        = some ["\t- p (bin)\n", "\t- p (bin)\n"] := by decide
    rw [hc] at hlines
    exact (Option.some.inj hlines).symm
  rw [hl] at hsel
  simpa using hsel

/-! ## Claim C2: the kind filter -/

/-- Claim C2: the selection filter keeps a record exactly when, for kind
Test, its profile test flag is true (regardless of target kinds), and
for kind Run, its target-kind list contains at least one of Bin, Example
or Test. -/
theorem selectFilter_by_kind (o : BuildOpt) :
    selectFilter CmdKind.Test o = o.profile.test ∧
    (selectFilter CmdKind.Run o = true ↔
      TargetKind.Bin ∈ o.target.kind ∨ TargetKind.Example ∈ o.target.kind ∨
        TargetKind.Test ∈ o.target.kind) := by
  constructor
  · simp [selectFilter]
  · simp only [selectFilter, lookFor]
    rw [if_neg (by decide)]
    simp [List.any_eq_true, beq_iff_eq]
    constructor
    · rintro ⟨k, hk, h | h | h⟩ <;> subst h <;> tauto
    · rintro (h | h | h) <;> exact ⟨_, h, by tauto⟩

/-- Witness for C2: a concrete record with a `bin` target kind passes the
Run filter. -/
theorem selectFilter_by_kind_witness :
    selectFilter CmdKind.Run artifactRec = true :=
  (selectFilter_by_kind artifactRec).2.mpr (Or.inl (by decide))

/-! ## Claim C3: when the placeholders are appended -/

/-- Counterexample to C3: in the template `--x=\x7bbin\x7d` no
whitespace-separated token equals `\x7bbin\x7d`, yet the code does not
append a `\x7bbin\x7d` token, because it tests substring containment on
the raw string; the token-equality rule the claim states produces a
different list. -/
theorem append_rule_token_equality_fails :
    ((splitWhitespace "--x={bin}").contains "{bin}") = false ∧
    appendedTokens "--x={bin}" = ["--x={bin}", "{args}"] ∧
    ¬ ("{bin}" ∈ appendedTokens "--x={bin}") ∧
    claimedAppendedTokens "--x={bin}" = ["--x={bin}", "{bin}", "{args}"] ∧
    appendedTokens "--x={bin}" ≠ claimedAppendedTokens "--x={bin}" := by
  decide

/-- Claim C3 (amended): the `\x7bbin\x7d` token is appended exactly when
the raw template does not contain `\x7bbin\x7d` as a substring, and
afterwards `\x7bargs\x7d` is appended exactly when the raw template does
not contain `\x7bargs\x7d` as a substring; a template containing neither
substring expands in the default order: template tokens, then the
artifact path, then the trailing arguments (each trailing argument with
any embedded `\x7bbin\x7d` substring replaced). -/
theorem append_rule_by_substring (raw : String) (trailing : List String) (p : String) :
    appendedTokens raw
      = (splitWhitespace raw
          ++ (if strContains raw "{bin}" then [] else ["{bin}"]))
          ++ (if strContains raw "{args}" then [] else ["{args}"]) ∧
    (strContains raw "{bin}" = false → strContains raw "{args}" = false →
      "{args}" ∉ splitWhitespace raw →
      (WithCmd.new raw trailing).split_cmd
        = (splitWhitespace raw ++ ["{bin}"]) ++ trailing) ∧
    (strContains raw "{bin}" = false → strContains raw "{args}" = false →
      "{args}" ∉ splitWhitespace raw →
      (∀ t ∈ splitWhitespace raw, strContains t "{bin}" = false) →
      expandedCmdList raw trailing p
        = some ((splitWhitespace raw ++ [p])
            ++ trailing.map (fun t => rustReplace t "{bin}" p))) := by
  have happ : ∀ hb : strContains raw "{bin}" = false,
      ∀ ha : strContains raw "{args}" = false,
      appendedTokens raw = (splitWhitespace raw ++ ["{bin}"]) ++ ["{args}"] := by
    intro hb ha
    simp [appendedTokens, hb, ha]
  have hsplit : ∀ hb : strContains raw "{bin}" = false,
      ∀ ha : strContains raw "{args}" = false,
      "{args}" ∉ splitWhitespace raw →
      (WithCmd.new raw trailing).split_cmd
        = (splitWhitespace raw ++ ["{bin}"]) ++ trailing := by
    intro hb ha hmem
    show ((appendedTokens raw).flatMap
        (fun el => if el = "{args}" then trailing else [el]))
      = (splitWhitespace raw ++ ["{bin}"]) ++ trailing
    rw [happ hb ha]
    rw [List.flatMap_append, List.flatMap_append]
    rw [flatMap_id_of_ne (splitWhitespace raw) trailing (fun x hx h => hmem (h ▸ hx))]
    simp
  refine ⟨?_, hsplit, ?_⟩
  · unfold appendedTokens
    split_ifs <;> simp
  · intro hb ha hmem htok
    have hcmd := hsplit hb ha hmem
    have hne : (WithCmd.new raw trailing).split_cmd ≠ [] := by
      rw [hcmd]; simp
    rw [expandedCmdList_of_ne_nil raw trailing p hne, hcmd]
    rw [List.map_append, List.map_append]
    have h1 : (splitWhitespace raw).map (fun el => rustReplace el "{bin}" p)
        = splitWhitespace raw :=
      map_id_of_eq _ _ (fun t ht => rustReplace_of_not_contains t "{bin}" p (htok t ht))
    have h2 : (["{bin}"] : List String).map (fun el => rustReplace el "{bin}" p)
        = [p] := by simp [rustReplace_exact_bin]
    rw [h1, h2]

/-- Witness for C3 at the template `gdb -q`, one trailing argument and a
concrete artifact path. -/
theorem append_rule_by_substring_witness :
    expandedCmdList "gdb -q" ["a"] "/x"
      = some ((splitWhitespace "gdb -q" ++ ["/x"])
          ++ (["a"].map (fun t => rustReplace t "{bin}" "/x"))) :=
  (append_rule_by_substring "gdb -q" ["a"] "/x").2.2
    (by decide) (by decide) (by decide) (by decide)

/-! ## Claim C4: placeholder substitution semantics -/

/-- Claim C4: a token exactly equal to `\x7bargs\x7d` is replaced in
place by the whole trailing-argument sequence, flattened and
order-preserving, contributing zero tokens when that list is empty, and
`\x7bargs\x7d` embedded in a larger token is not substituted (the splice
acts on exact tokens only); afterwards every element has each
`\x7bbin\x7d` substring replaced, so a token exactly equal to
`\x7bbin\x7d` becomes the artifact path. -/
theorem with_cmd_placeholder_semantics (raw : String) (trailing : List String)
    (p : String) :
    (WithCmd.new raw trailing).split_cmd
      = (appendedTokens raw).flatMap
          (fun el => if el = "{args}" then trailing else [el]) ∧
    (∀ exe args,
        (WithCmd.new raw trailing).child_command p = Except.ok (exe, args) →
        exe :: args = (WithCmd.new raw trailing).split_cmd.map
          (fun el => rustReplace el "{bin}" p)) ∧
    rustReplace "{bin}" "{bin}" p = p ∧
    (trailing = [] →
      (WithCmd.new raw trailing).split_cmd
        = (appendedTokens raw).filter (fun el => el != "{args}")) ∧
    (WithCmd.new "x{args}y" ["A"]).split_cmd = ["x{args}y", "{bin}"] ∧
    expandedCmdList "gdb --args {bin} {args}" ["x", "y"] "/a/b"
      = some ["gdb", "--args", "/a/b", "x", "y"] := by
  refine ⟨rfl, ?_, rustReplace_exact_bin p, ?_, by decide, by decide⟩
  · intro exe args h
    rcases hh : (WithCmd.new raw trailing).split_cmd with _ | ⟨b, bs⟩
    · simp [WithCmd.child_command, hh] at h
    · simp [WithCmd.child_command, hh] at h
      simp [h.1, h.2]
  · intro h
    subst h
    exact flatMap_empty_trailing (appendedTokens raw)

/-- Witness for C4: a concrete expansion where the executable is kept,
the appended `\x7bbin\x7d` token becomes the path and the trailing
argument follows. -/
theorem with_cmd_placeholder_semantics_witness :
    ("echo" : String) :: ["/x", "a"]
      = (WithCmd.new "echo" ["a"]).split_cmd.map
          (fun el => rustReplace el "{bin}" "/x") :=
  (with_cmd_placeholder_semantics "echo" ["a"] "/x").2.1 "echo" ["/x", "a"] (by rfl)

/-! ## Claim C5: the external cargo invocation -/

/-- Counterexample to C5: for the Test kind the invocation is
`test --message-format=json --quiet` with no `--no-run` flag anywhere. -/
theorem cargo_invocation_no_norun_cex :
    (Cmd.mk CmdKind.Test ["--release"]).argsList
      = ["test", "--message-format=json", "--quiet", "--release"] ∧
    "--no-run" ∉ (Cmd.mk CmdKind.Test ["--release"]).argsList := by
  decide

/-- Claim C5 (amended): the external build tool is invoked with the
mapped sub-operation (Run maps to `build`, Test maps to `test`) followed
by the fixed flags `--message-format=json --quiet`, followed by the
user's extra flags in order; no `--no-run` flag is passed unless the
user supplies it. -/
theorem cargo_invocation_args (c : Cmd) (kind : CmdKind) (userArgs : List String) :
    c.argsList = c.kind.as_artifact_cmd :: (DEFAULT_CARGO_ARGS ++ c.args) ∧
    CmdKind.Run.as_artifact_cmd = "build" ∧
    CmdKind.Test.as_artifact_cmd = "test" ∧
    DEFAULT_CARGO_ARGS = ["--message-format=json", "--quiet"] ∧
    ("--no-run" ∈ (Cmd.mk kind userArgs).argsList → "--no-run" ∈ userArgs) := by
  refine ⟨rfl, rfl, rfl, rfl, ?_⟩
  intro h
  rcases kind <;>
    simpa [Cmd.argsList, CmdKind.as_artifact_cmd, DEFAULT_CARGO_ARGS] using h

/-- Witness for C5: when the user passes `--no-run` themselves it is
(and may only be) part of the user-argument segment. -/
theorem cargo_invocation_args_witness :
    "--no-run" ∈ (["--no-run"] : List String) :=
  (cargo_invocation_args (Cmd.mk CmdKind.Run []) CmdKind.Run ["--no-run"]).2.2.2.2
    (by decide)

/-! ## Claim C6: accepted command kinds -/

/-- Counterexample to C6: the first token `bench` is not accepted; it
fails just like any other unknown token, before any external invocation
can be built. -/
theorem bench_not_supported_cex :
    CmdKind.from_str "bench" = none ∧
    Cmd.from_strs ["bench"]
      = Except.error "Unable to convert \x27bench\x27 into a cargo subcommand" ∧
    runnerCargoCmd ["bench", "--", "x"]
      = Except.error "Unable to convert \x27bench\x27 into a cargo subcommand" :=
  ⟨rfl, rfl, rfl⟩

/-- Claim C6 (amended): the first token of the build-subcommand list is
accepted and mapped to a command kind exactly when it is `run` or
`test`; an empty list or any other first token (including `bench`) makes
command construction — and hence the pipeline, before the external build
tool is invoked — fail with the corresponding error. -/
theorem cmd_from_strs_run_test_only (k : String) (rest : List String) :
    Cmd.from_strs [] = Except.error "Empty cargo command" ∧
    (k = "run" → Cmd.from_strs (k :: rest) = Except.ok ⟨CmdKind.Run, rest⟩) ∧
    (k = "test" → Cmd.from_strs (k :: rest) = Except.ok ⟨CmdKind.Test, rest⟩) ∧
    (k ≠ "run" → k ≠ "test" →
      Cmd.from_strs (k :: rest)
        = Except.error ("Unable to convert \x27" ++ k ++ "\x27 into a cargo subcommand")) ∧
    ((∃ c, Cmd.from_strs (k :: rest) = Except.ok c) ↔ (k = "run" ∨ k = "test")) := by
  refine ⟨rfl, ?_, ?_, ?_, ?_⟩
  · intro h; subst h; rfl
  · intro h; subst h; rfl
  · intro h1 h2; simp [Cmd.from_strs, CmdKind.from_str, h1, h2]
  · constructor
    · rintro ⟨c, hc⟩
      by_cases h1 : k = "run"
      · exact Or.inl h1
      by_cases h2 : k = "test"
      · exact Or.inr h2
      simp [Cmd.from_strs, CmdKind.from_str, h1, h2] at hc
    · rintro (h | h) <;> subst h <;> exact ⟨_, rfl⟩

/-- Witness for C6: `run` is accepted and the remaining tokens become the
extra cargo arguments. -/
theorem cmd_from_strs_run_test_only_witness :
    Cmd.from_strs ["run", "--release"]
      = Except.ok ⟨CmdKind.Run, ["--release"]⟩ :=
  (cmd_from_strs_run_test_only "run" ["--release"]).2.1 rfl

/-! ## Claim C7: artifact path extraction -/

/-- Claim C7 (the code is wrong here): `BuildOpt::artifact` indexes
`filenames[0]` unconditionally, so on a record with an empty output-path
list it hits the out-of-range fault (the `none` below) instead of
returning the distinct no-output-path error the spec demands — the
`Result` error channel of `artifact` is never used.  On a non-empty list
it returns the first path. -/
theorem artifact_empty_filenames_panics :
    emptyFilenamesRec.filenames = [] ∧
    emptyFilenamesRec.artifact = none ∧
    artifactRec.artifact = some (Except.ok "/t/x") :=
  ⟨rfl, rfl, rfl⟩

/-! ## Claim C8: per-line decoding with silent drops -/

/-- Claim C8: each line of build output is decoded independently and a
line that fails to decode is silently dropped, the result being exactly
the records of the decodable lines in order; in particular a stream
mixing one undecodable status line with one valid artifact line yields
exactly that one record. -/
theorem cmd_run_line_decoding (pre post : List String) (bad : String)
    (hbad : deserializeBuildOpt bad = none) :
    decodedRecords (pre ++ bad :: post) = decodedRecords (pre ++ post) ∧
    deserializeBuildOpt statusLine = none ∧
    deserializeBuildOpt artifactLine = some artifactRec ∧
    parseBuildOpts (statusLine ++ "\n" ++ artifactLine) = [artifactRec] := by
  refine ⟨?_, by decide, by decide, by decide⟩
  simp [decodedRecords, List.filterMap_append, List.filterMap_cons, hbad]

/-- Witness for C8 with a concrete undecodable line. -/
theorem cmd_run_line_decoding_witness :
    decodedRecords (([] : List String) ++ "not json" :: []) = decodedRecords ([] ++ []) ∧
    deserializeBuildOpt statusLine = none ∧
    deserializeBuildOpt artifactLine = some artifactRec ∧
    parseBuildOpts (statusLine ++ "\n" ++ artifactLine) = [artifactRec] :=
  cmd_run_line_decoding [] [] "not json" (by decide)

/-! ## Claim C9: the reason field and selection -/

/-- Counterexample to C9: an artifact-shaped line whose `reason` is
`build-script-executed` decodes fine (the decoder checks shape, not the
reason value), passes the Test filter and is returned by selection;
selection never inspects `reason`. -/
theorem selection_ignores_reason_cex :
    parseBuildOpts scriptReasonLine = [scriptReasonRec] ∧
    scriptReasonRec.reason = "build-script-executed" ∧
    scriptReasonRec.reason ≠ "compiler-artifact" ∧
    select_buildopt [scriptReasonRec] CmdKind.Test
      = some (Except.ok scriptReasonRec) := by
  refine ⟨by decide, rfl, by decide, rfl⟩

/-- Claim C9 (amended): selection never inspects the `reason` field — the
filter is invariant under changing it, and any record passing the kind
filter is returned when it is the only candidate, whatever its reason.
Non-artifact lines are excluded earlier, at the parse stage, only when
their shape fails to decode. -/
theorem selection_ignores_reason (kind : CmdKind) (o : BuildOpt) (r : String) :
    selectFilter kind { o with reason := r } = selectFilter kind o ∧
    (selectFilter kind o = true →
      select_buildopt [o] kind = some (Except.ok o)) := by
  refine ⟨rfl, ?_⟩
  intro h
  simp [select_buildopt, List.filter, h]

/-- Witness for C9 (amended) at the concrete wrong-reason record. -/
theorem selection_ignores_reason_witness :
    select_buildopt [scriptReasonRec] CmdKind.Test
      = some (Except.ok scriptReasonRec) :=
  (selection_ignores_reason CmdKind.Test scriptReasonRec "x").2 (by decide)

/-! ## Claim C10: trailing arguments are substituted too -/

/-- Claim C10: trailing arguments are spliced into the token list before
the `\x7bbin\x7d` replacement runs, so the final expanded command ends
with the trailing arguments each having any embedded `\x7bbin\x7d`
substring replaced — trailing arguments are not passed through
verbatim. -/
theorem trailing_args_bin_substitution (raw : String) (trailing : List String)
    (p : String) (h : strContains raw "{args}" = false) :
    (∃ pre, expandedFlat raw trailing p
        = pre ++ trailing.map (fun t => rustReplace t "{bin}" p)) ∧
    expandedCmdList "echo" ["--path={bin}"] "/tmp/x"
      = some ["echo", "/tmp/x", "--path=/tmp/x"] ∧
    rustReplace "--path={bin}" "{bin}" "/tmp/x" ≠ "--path={bin}" := by
  refine ⟨?_, by decide, by decide⟩
  refine ⟨((if strContains raw "{bin}" then splitWhitespace raw
      else splitWhitespace raw ++ ["{bin}"]).flatMap
        (fun el => if el = "{args}" then trailing else [el])).map
          (fun el => rustReplace el "{bin}" p), ?_⟩
  show ((appendedTokens raw).flatMap
      (fun el => if el = "{args}" then trailing else [el])).map
        (fun el => rustReplace el "{bin}" p) = _
  rw [show appendedTokens raw
      = (if strContains raw "{bin}" then splitWhitespace raw
          else splitWhitespace raw ++ ["{bin}"]) ++ ["{args}"] by
    simp [appendedTokens, h]]
  rw [List.flatMap_append]
  simp [List.map_append]

/-- Witness for C10 at a concrete template and trailing argument
containing the placeholder. -/
theorem trailing_args_bin_substitution_witness :
    expandedCmdList "echo" ["--path={bin}"] "/tmp/x"
      = some ["echo", "/tmp/x", "--path=/tmp/x"] :=
  (trailing_args_bin_substitution "echo" ["--path={bin}"] "/tmp/x" (by decide)).2.1

end CargoWith
